import Mathlib

/-!
Shallow embedding of `src/lib/createForm.ts` from the lidso-form repository:
a SolidJS form controller (`createForm`) with field registration, type-directed
value coercion, a validator pass, and submission handling.

Modelling conventions:
* JS values flowing through the form are `FieldValue` (string, number, boolean);
  a JS number is modelled as `Option Int` with `none` playing the role of `NaN`,
  since the only numeric producer in the source is `parseInt` on an input value.
* JS objects used as maps (`fields`, `_validators`, `refs`, `errors`) are
  association lists in insertion order; assigning to an existing key replaces
  its value in place, new keys are appended — matching JS object key order,
  which drives the `for ... in` iteration of the validator pass.
* DOM elements are records of the attributes the source reads or writes
  (`type`, `value`, `checked`); `focus()` is a DOM-only effect that changes no
  form state and is not modelled.
* `submitForm` returns, besides the new form, a trace: the list of `onSubmit`
  invocations (each with the fields snapshot passed and the `isLoading` flag at
  the moment of the call) and how many errors the catch block logged. The
  function being total models that no exception escapes `submitForm`.
-/

namespace LidsoForm

/-- A JS value of the source's `FieldType = string | number | boolean`.
`num none` represents `NaN`. -/
inductive FieldValue where
  | str (s : String)
  | num (n : Option Int)
  | boolVal (b : Bool)
deriving DecidableEq, Repr

/-- The `fields` store: field name to current value, insertion ordered. -/
abbrev Fields := List (String × FieldValue)

/-- The `_validators` map (`Validators<T>` in the source): field name to the
entry last written by `register`. -/
abbrev Validators := List (String × FieldValue)

/-- The `errors` map (`Errors<T>` in the source): field name to message. -/
abbrev Errors := List (String × String)

/-- The attributes of a bound `LidsoFormElement` that the source reads
(`type`, `value`, `checked`) or writes (`value`, `checked`). -/
structure InputElement where
  type : String
  value : String
  checked : Bool
deriving DecidableEq, Repr

/-- The `FormState<T>` store of the source, field for field. -/
structure FormState where
  isDirty : Bool
  dirtyFields : List String
  touchedFields : List String
  submitCount : Nat
  isValid : Bool
  isLoading : Bool
  errors : Errors
deriving DecidableEq, Repr

/-- A whole form instance: the closure state of one `createForm` call.
`initialValues` is `options.initialValues` (`none` when the option was not
given); `refs` and `validators` are the two private maps. -/
structure Form where
  initialValues : Option Fields
  refs : List (String × InputElement)
  validators : Validators
  fields : Fields
  formState : FormState
deriving DecidableEq, Repr

/-- The initial `formState` store of `createForm`. -/
def initialFormState : FormState :=
  { isDirty := false
    dirtyFields := []
    touchedFields := []
    submitCount := 0
    isValid := false
    isLoading := false
    errors := [] }

/-- The form as `createForm` builds it from its options. -/
def createForm (initialValues : Option Fields) : Form :=
  { initialValues := initialValues
    refs := []
    validators := []
    fields := initialValues.getD []
    formState := initialFormState }

/-- JS property read `obj[key]` on a string-keyed object rendered as an
association list: the first (for object-derived lists, only) binding wins. -/
def lookupKey {α : Type} (key : String) : List (String × α) → Option α
  | [] => none
  | kv :: rest => if kv.1 = key then some kv.2 else lookupKey key rest

/-- JS object assignment `obj[key] = v`: replaces the value in place when the
key exists, appends otherwise (JS string-keyed objects keep insertion order). -/
def updateAssoc {α : Type} (key : String) (v : α) :
    List (String × α) → List (String × α)
  | [] => [(key, v)]
  | kv :: rest =>
    if kv.1 = key then (key, v) :: rest else kv :: updateAssoc key v rest

/-- JS `String(x)` on a field value (`String(undefined)` handled by
`jsString` below). -/
def jsStringOfValue : FieldValue → String
  | .str s => s
  | .num none => "NaN"
  | .num (some i) => toString i
  | .boolVal true => "true"
  | .boolVal false => "false"

/-- JS `String(x)` where `x` is a possibly-missing property lookup:
`String(undefined) = "undefined"`. -/
def jsString : Option FieldValue → String
  | none => "undefined"
  | some v => jsStringOfValue v

/-- JS `Boolean(x)` where `x` is a possibly-missing property lookup:
`Boolean(undefined) = false`, `Boolean("") = false`, `Boolean(NaN) = false`,
`Boolean(0) = false`. -/
def jsBoolean : Option FieldValue → Bool
  | none => false
  | some (.str s) => !(s == "")
  | some (.num none) => false
  | some (.num (some i)) => !(i == 0)
  | some (.boolVal b) => b

/-- JS `parseInt(s)` on a decimal string: skip leading whitespace, read an
optional sign, then the longest digit prefix; no digits yields `NaN`
(`none`). Hexadecimal `0x` prefixes and exotic Unicode whitespace are not
modelled; no input produced by the claims uses them. -/
def parseIntJS (s : String) : Option Int :=
  let cs := s.toList.dropWhile
    (fun c => c == ' ' || c == '\t' || c == '\n' || c == '\r')
  let signed : Int × List Char :=
    match cs with
    | '-' :: rest => (-1, rest)
    | '+' :: rest => (1, rest)
    | _ => (1, cs)
  let digits := signed.2.takeWhile Char.isDigit
  if digits.isEmpty then none
  else some (signed.1 * ((digits.foldl (fun acc c => acc * 10 + (c.toNat - 48)) 0 : Nat) : Int))

/-- The type-directed coercion applied by `_setAdequateValue`:
`type === "number"` → `parseInt(ref.value)`, `type === "checkbox"` →
`ref.checked`, otherwise the raw `ref.value` string. -/
def coerceValue (ref : InputElement) : FieldValue :=
  if ref.type = "number" then .num (parseIntJS ref.value)
  else if ref.type = "checkbox" then .boolVal ref.checked
  else .str ref.value

/-- `_setAdequateValue(key, ref)`: sets `isDirty`, pushes `key` onto
`touchedFields` when absent, then writes the coerced element value into the
`fields` store at `key`. -/
def _setAdequateValue (key : String) (ref : InputElement) (f : Form) : Form :=
  let fs := f.formState
  let fs := { fs with
    isDirty := true
    touchedFields :=
      if fs.touchedFields.contains key then fs.touchedFields
      else fs.touchedFields ++ [key] }
  { f with formState := fs, fields := updateAssoc key (coerceValue ref) f.fields }

/-- `_setInitialValues(ref, key)`: when the `initialValues` option object was
given, writes `initialValues[key]` onto the element by element type
(number → `String(...)` into `value`, checkbox → `Boolean(...)` into
`checked`, else → `String(...)` into `value`). The guard in the source is on
the whole `options.initialValues` object, not on the key, so a missing key
still writes (`String(undefined)` / `Boolean(undefined)`). -/
def _setInitialValues (initialValues : Option Fields) (ref : InputElement)
    (key : String) : InputElement :=
  match initialValues with
  | none => ref
  | some iv =>
    if ref.type = "number" then { ref with value := jsString (lookupKey key iv) }
    else if ref.type = "checkbox" then
      { ref with checked := jsBoolean (lookupKey key iv) }
    else { ref with value := jsString (lookupKey key iv) }

/-- The error object the validation pass builds: for every key of
`_validators` in iteration order whose entry is a string, `errors[key]` is
that string. -/
def computeErrors (vs : Validators) : Errors :=
  vs.filterMap (fun kv =>
    match kv.2 with
    | .str s => some (kv.1, s)
    | _ => none)

/-- `_validate(shouldFocus)`: builds the error object from `_validators`,
publishes it into `formState.errors` (via `reconcile`) only when
`formState.submitCount > 0`, recomputes `isValid` as "the error object is
empty", and returns that flag. The `shouldFocus` focus call moves DOM focus
only and changes no form state. -/
def _validate (_shouldFocus : Bool) (f : Form) : Form × Bool :=
  let errors := computeErrors f.validators
  let f :=
    if f.formState.submitCount > 0 then
      { f with formState := { f.formState with errors := errors } }
    else f
  let isFormValid := errors.isEmpty
  ({ f with formState := { f.formState with isValid := isFormValid } }, isFormValid)

/-- Ref attachment of `register(key, validators)`: stores the element (after
`_setInitialValues` mutated it) in `refs[key]`, then, when a validator list
was given, assigns each entry in turn to `_validators[key]` — each
assignment overwriting the previous one. The attached input listener is
modelled separately as `inputEvent`. -/
def register (key : String) (validators : Option (List FieldValue))
    (ref : InputElement) (f : Form) : Form :=
  let instanceElem := _setInitialValues f.initialValues ref key
  let f := { f with refs := updateAssoc key instanceElem f.refs }
  match validators with
  | none => f
  | some vs =>
    { f with validators := vs.foldl (fun acc v => updateAssoc key v acc) f.validators }

/-- The input-event listener attached by `register`: `_setAdequateValue`
followed by a non-focusing `_validate`. `ref` is the bound element's state at
event time. -/
def inputEvent (key : String) (ref : InputElement) (f : Form) : Form :=
  (_validate false (_setAdequateValue key ref f)).1

/-- What one `submitForm` call did: every `onSubmit` invocation (fields
snapshot passed, and `isLoading` at the moment of the call), and how many
errors the `catch` block logged via `console.error`. -/
structure SubmitTrace where
  calls : List (Fields × Bool)
  logged : Nat
deriving DecidableEq, Repr

/-- `submitForm(e)`: increments `submitCount`, runs a focusing validation
pass; when valid, sets `isLoading` true, invokes `onSubmit(fields)` once,
logs (does not rethrow) a rejection, and resets `isLoading` false in the
`finally` block; when invalid, does nothing further. Totality of this
function models that no exception escapes `submitForm`. -/
def submitForm (onSubmit : Fields → Except String Unit) (f : Form) :
    Form × SubmitTrace :=
  let f := { f with formState :=
    { f.formState with submitCount := f.formState.submitCount + 1 } }
  let validated := _validate true f
  let f := validated.1
  if validated.2 then
    let f := { f with formState := { f.formState with isLoading := true } }
    let call : Fields × Bool := (f.fields, f.formState.isLoading)
    let logged : Nat :=
      match onSubmit f.fields with
      | .ok _ => 0
      | .error _ => 1
    let f := { f with formState := { f.formState with isLoading := false } }
    (f, { calls := [call], logged := logged })
  else
    (f, { calls := [], logged := 0 })

/-- The returned `setFields` store setter, applied at one path: writes the
value into the `fields` store and touches nothing else. -/
def setFields (key : String) (v : FieldValue) (f : Form) : Form :=
  { f with fields := updateAssoc key v f.fields }

/-- One externally triggerable operation on a form, for whole-run
statements. -/
inductive Op where
  | input (key : String) (ref : InputElement)
  | reg (key : String) (validators : Option (List FieldValue)) (ref : InputElement)
  | setF (key : String) (v : FieldValue)
  | submit (onSubmit : Fields → Except String Unit)

/-- Whether an operation is a `submitForm` call. -/
def Op.isSubmit : Op → Bool
  | .submit _ => true
  | _ => false

/-- Apply one operation to a form. -/
def applyOp (op : Op) (f : Form) : Form :=
  match op with
  | .input key ref => inputEvent key ref f
  | .reg key vs ref => register key vs ref f
  | .setF key v => setFields key v f
  | .submit onSub => (submitForm onSub f).1

/-- Run a sequence of operations left to right. -/
def run (ops : List Op) (f : Form) : Form :=
  ops.foldl (fun f op => applyOp op f) f

/-- JS `typeof v === "string"`, the test the validation pass applies to each
validator entry. -/
def FieldValue.isString : FieldValue → Bool
  | .str _ => true
  | _ => false

/-- A text input element with the given current value, for concrete runs. -/
def textElem (v : String) : InputElement :=
  { type := "text", value := v, checked := false }

/-- A concrete form whose single registered validator passes. -/
def sampleValidForm : Form :=
  { createForm none with
    validators := [("u", .boolVal true)]
    fields := [("u", .str "x")] }

/-- A concrete form whose single registered validator fails with a message. -/
def sampleInvalidForm : Form :=
  { createForm none with validators := [("u", .str "required")] }

/-- A concrete form holding an empty-string validator entry after one
submission attempt. -/
def sampleEmptyMsgForm : Form :=
  { createForm none with
    validators := [("f", .str "")]
    formState := { initialFormState with submitCount := 1 } }

/-- A concrete form with a failing validator after one submission attempt. -/
def sampleSubmittedForm : Form :=
  { createForm none with
    validators := [("u", .str "required")]
    formState := { initialFormState with submitCount := 1 } }

/-! ### Lemmas about the JS-object operations -/

theorem lookupKey_updateAssoc_self {α : Type} (key : String) (v : α)
    (l : List (String × α)) :
    lookupKey key (updateAssoc key v l) = some v := by
  induction l with
  | nil => simp [updateAssoc, lookupKey]
  | cons kv rest ih =>
    by_cases h : kv.1 = key
    · simp [updateAssoc, h, lookupKey]
    · simp [updateAssoc, h, lookupKey, ih]

theorem lookupKey_eq_none_of_not_mem {α : Type} (key : String)
    (l : List (String × α)) (h : key ∉ l.map Prod.fst) :
    lookupKey key l = none := by
  induction l with
  | nil => rfl
  | cons kv rest ih =>
    rw [List.map_cons] at h
    simp only [List.mem_cons, not_or] at h
    have hne : kv.1 ≠ key := fun e => h.1 e.symm
    simp [lookupKey, hne, ih h.2]

theorem mem_keys_computeErrors {vs : Validators} {k : String}
    (h : k ∈ (computeErrors vs).map Prod.fst) : k ∈ vs.map Prod.fst := by
  simp only [List.mem_map] at h ⊢
  obtain ⟨⟨k1, s⟩, hmem, hk⟩ := h
  obtain ⟨⟨k2, v⟩, hmem2, heq⟩ := List.mem_filterMap.mp hmem
  cases v with
  | str s2 =>
    simp only at heq
    obtain ⟨hke, _⟩ := Prod.mk.injEq .. ▸ (Option.some.injEq .. ▸ heq)
    exact ⟨(k2, FieldValue.str s2), hmem2, by simpa [hke] using hk⟩
  | num n => simp at heq
  | boolVal b => simp at heq

theorem lookupKey_computeErrors (vs : Validators) (k : String)
    (hnd : (vs.map Prod.fst).Nodup) :
    lookupKey k (computeErrors vs) =
      match lookupKey k vs with
      | some (FieldValue.str s) => some s
      | _ => none := by
  induction vs with
  | nil => rfl
  | cons kv rest ih =>
    obtain ⟨k0, v0⟩ := kv
    rw [List.map_cons, List.nodup_cons] at hnd
    obtain ⟨hk0, hrest⟩ := hnd
    cases v0 with
    | str s =>
      rw [show computeErrors ((k0, FieldValue.str s) :: rest)
            = (k0, s) :: computeErrors rest from rfl]
      by_cases hk : k0 = k
      · subst hk
        simp [lookupKey]
      · simp only [lookupKey, if_neg hk]
        exact ih hrest
    | num n =>
      rw [show computeErrors ((k0, FieldValue.num n) :: rest)
            = computeErrors rest from rfl]
      by_cases hk : k0 = k
      · subst hk
        rw [lookupKey_eq_none_of_not_mem _ _
          (fun hmem => hk0 (mem_keys_computeErrors hmem))]
        simp [lookupKey]
      · simp only [lookupKey, if_neg hk]
        exact ih hrest
    | boolVal bb =>
      rw [show computeErrors ((k0, FieldValue.boolVal bb) :: rest)
            = computeErrors rest from rfl]
      by_cases hk : k0 = k
      · subst hk
        rw [lookupKey_eq_none_of_not_mem _ _
          (fun hmem => hk0 (mem_keys_computeErrors hmem))]
        simp [lookupKey]
      · simp only [lookupKey, if_neg hk]
        exact ih hrest

theorem computeErrors_eq_nil_iff (vs : Validators) :
    computeErrors vs = [] ↔ ∀ kv ∈ vs, kv.2.isString = false := by
  unfold computeErrors
  rw [List.filterMap_eq_nil_iff]
  constructor
  · intro h kv hkv
    have := h kv hkv
    obtain ⟨k0, v0⟩ := kv
    cases v0 <;> simp_all [FieldValue.isString]
  · intro h kv hkv
    have := h kv hkv
    obtain ⟨k0, v0⟩ := kv
    cases v0 <;> simp_all [FieldValue.isString]

theorem mem_computeErrors_of_mem (vs : Validators) (k s : String)
    (h : (k, FieldValue.str s) ∈ vs) : (k, s) ∈ computeErrors vs := by
  unfold computeErrors
  exact List.mem_filterMap.mpr ⟨(k, .str s), h, rfl⟩

theorem mem_keys_updateAssoc {α : Type} (key k : String) (v : α)
    (l : List (String × α)) :
    k ∈ (updateAssoc key v l).map Prod.fst ↔ k ∈ l.map Prod.fst ∨ k = key := by
  induction l with
  | nil => simp [updateAssoc]
  | cons kv rest ih =>
    by_cases hk : kv.1 = key
    · rw [show updateAssoc key v (kv :: rest) = (key, v) :: rest from by
        simp [updateAssoc, hk]]
      simp [hk]
      tauto
    · rw [show updateAssoc key v (kv :: rest) = kv :: updateAssoc key v rest from by
        simp [updateAssoc, hk]]
      simp [ih]
      tauto

theorem nodupKeys_updateAssoc {α : Type} (key : String) (v : α)
    (l : List (String × α)) (h : (l.map Prod.fst).Nodup) :
    ((updateAssoc key v l).map Prod.fst).Nodup := by
  induction l with
  | nil => simp [updateAssoc]
  | cons kv rest ih =>
    rw [List.map_cons, List.nodup_cons] at h
    obtain ⟨h1, h2⟩ := h
    by_cases hk : kv.1 = key
    · rw [show updateAssoc key v (kv :: rest) = (key, v) :: rest from by
        simp [updateAssoc, hk]]
      rw [List.map_cons, List.nodup_cons]
      exact ⟨hk ▸ h1, h2⟩
    · rw [show updateAssoc key v (kv :: rest) = kv :: updateAssoc key v rest from by
        simp [updateAssoc, hk]]
      rw [List.map_cons, List.nodup_cons]
      refine ⟨?_, ih h2⟩
      intro hmem
      rcases (mem_keys_updateAssoc key kv.1 v rest).mp hmem with hin | heq
      · exact h1 hin
      · exact hk heq

theorem nodupKeys_foldl_updateAssoc (key : String) (vs : List FieldValue)
    (l : Validators) (h : (l.map Prod.fst).Nodup) :
    ((vs.foldl (fun acc v => updateAssoc key v acc) l).map Prod.fst).Nodup := by
  induction vs generalizing l with
  | nil => exact h
  | cons v rest ih => exact ih _ (nodupKeys_updateAssoc key v l h)

theorem lookupKey_foldl_updateAssoc (key : String) (vs : List FieldValue)
    (l : Validators) (hne : vs ≠ []) :
    lookupKey key (vs.foldl (fun acc v => updateAssoc key v acc) l)
      = some (vs.getLast hne) := by
  induction vs generalizing l with
  | nil => exact absurd rfl hne
  | cons v rest ih =>
    cases rest with
    | nil => simpa using lookupKey_updateAssoc_self key v l
    | cons v2 rest2 =>
      rw [List.foldl_cons, ih (updateAssoc key v l) (by simp),
        List.getLast_cons (by simp : v2 :: rest2 ≠ [])]

/-! ### Normal forms of the state transformers -/

theorem _validate_eq (b : Bool) (f : Form) :
    _validate b f =
      ({ f with formState := { f.formState with
            errors := if f.formState.submitCount > 0 then computeErrors f.validators
                      else f.formState.errors
            isValid := (computeErrors f.validators).isEmpty } },
       (computeErrors f.validators).isEmpty) := by
  unfold _validate
  by_cases h : f.formState.submitCount > 0 <;> simp [h]

theorem submitForm_valid_eq (onSub : Fields → Except String Unit) (f : Form)
    (h : computeErrors f.validators = []) :
    submitForm onSub f =
      ({ f with formState := { f.formState with
            submitCount := f.formState.submitCount + 1
            errors := []
            isValid := true
            isLoading := false } },
       { calls := [(f.fields, true)]
         logged := match onSub f.fields with | .ok _ => 0 | .error _ => 1 }) := by
  simp [submitForm, _validate_eq, h]

theorem submitForm_invalid_eq (onSub : Fields → Except String Unit) (f : Form)
    (h : computeErrors f.validators ≠ []) :
    submitForm onSub f =
      ({ f with formState := { f.formState with
            submitCount := f.formState.submitCount + 1
            errors := computeErrors f.validators
            isValid := false } },
       { calls := [], logged := 0 }) := by
  have hb : (computeErrors f.validators).isEmpty = false := by
    simpa [List.isEmpty_iff] using h
  simp [submitForm, _validate_eq, hb]

theorem inputEvent_fields (key : String) (ref : InputElement) (f : Form) :
    (inputEvent key ref f).fields = updateAssoc key (coerceValue ref) f.fields := by
  unfold inputEvent
  rw [_validate_eq]
  rfl

/-! ### Claim theorems -/

/-- C1: When every registered validator entry passes (none is a string),
`submitForm` invokes `onSubmit` exactly once with the current `fields`
snapshot, `isLoading` is `true` at the moment of that call and `false`
afterwards, and a rejection is caught and logged (one `console.error`)
rather than escaping — `submitForm` always returns normally. -/
theorem submitForm_valid_invokes_onSubmit_once (f : Form)
    (onSub : Fields → Except String Unit)
    (h : ∀ kv ∈ f.validators, kv.2.isString = false) :
    (submitForm onSub f).2.calls = [(f.fields, true)]
    ∧ (submitForm onSub f).1.formState.isLoading = false
    ∧ (submitForm onSub f).2.logged
        = (match onSub f.fields with | .ok _ => 0 | .error _ => 1) := by
  have hce : computeErrors f.validators = [] :=
    (computeErrors_eq_nil_iff f.validators).mpr h
  rw [submitForm_valid_eq onSub f hce]
  exact ⟨rfl, rfl, rfl⟩

/-- C1 witness: a concrete all-passing form with a rejecting handler —
`onSubmit` is called once with the fields while loading, the rejection is
logged, and `isLoading` ends `false`. -/
theorem submitForm_valid_invokes_onSubmit_once_witness :
    (submitForm (fun _ => Except.error "boom") sampleValidForm).2.calls
        = [([("u", FieldValue.str "x")], true)]
    ∧ (submitForm (fun _ => Except.error "boom")
        sampleValidForm).1.formState.isLoading = false
    ∧ (submitForm (fun _ => Except.error "boom") sampleValidForm).2.logged = 1 := by
  have h := submitForm_valid_invokes_onSubmit_once sampleValidForm
    (fun _ => Except.error "boom") (by decide)
  exact ⟨h.1, h.2.1, h.2.2⟩

/-- C2: With at least one failing (string-valued) validator entry,
`submitForm` never invokes `onSubmit` and leaves `isLoading` unchanged. -/
theorem submitForm_invalid_skips_onSubmit (f : Form)
    (onSub : Fields → Except String Unit) (k s : String)
    (h : (k, FieldValue.str s) ∈ f.validators) :
    (submitForm onSub f).2.calls = []
    ∧ (submitForm onSub f).1.formState.isLoading = f.formState.isLoading := by
  have hne : computeErrors f.validators ≠ [] :=
    List.ne_nil_of_mem (mem_computeErrors_of_mem f.validators k s h)
  rw [submitForm_invalid_eq onSub f hne]
  exact ⟨rfl, rfl⟩

/-- C2 witness: submitting a concrete form with a failing validator calls
`onSubmit` zero times and `isLoading` stays `false`. -/
theorem submitForm_invalid_skips_onSubmit_witness :
    (submitForm (fun _ => Except.ok ()) sampleInvalidForm).2.calls = []
    ∧ (submitForm (fun _ => Except.ok ())
        sampleInvalidForm).1.formState.isLoading = false := by
  have h := submitForm_invalid_skips_onSubmit sampleInvalidForm
    (fun _ => Except.ok ()) "u" "required" (by decide)
  exact ⟨h.1, h.2⟩

/-- C3: After an input event on a registered field, `fields[name]` is the
type-coerced current element value: integer `parseInt` for a number element
(non-numeric input propagates NaN, it does not default to zero), the
`checked` flag for a checkbox, and the raw string otherwise. -/
theorem inputEvent_stores_coerced_value (f : Form) (key : String)
    (ref : InputElement) :
    lookupKey key ((inputEvent key ref f).fields) = some (coerceValue ref)
    ∧ coerceValue { type := "number", value := "abc", checked := false }
        = FieldValue.num none
    ∧ coerceValue { type := "number", value := "42", checked := false }
        = FieldValue.num (some 42)
    ∧ coerceValue { type := "checkbox", value := "", checked := true }
        = FieldValue.boolVal true
    ∧ coerceValue { type := "text", value := "abc", checked := false }
        = FieldValue.str "abc" := by
  refine ⟨?_, by decide, by decide, by decide, by decide⟩
  rw [inputEvent_fields]
  exact lookupKey_updateAssoc_self key (coerceValue ref) f.fields

/-- C4: After any validation pass, `isValid` is `true` iff the error object
the pass derived from the validators is empty; the pass also returns that
flag. -/
theorem validate_isValid_iff_errors_empty (b : Bool) (f : Form) :
    ((_validate b f).1.formState.isValid = true ↔ computeErrors f.validators = [])
    ∧ (_validate b f).2 = (_validate b f).1.formState.isValid := by
  rw [_validate_eq]
  exact ⟨List.isEmpty_iff, rfl⟩

/-- C4 witness: a fresh form with no validators is valid after a pass. -/
theorem validate_isValid_iff_errors_empty_witness :
    (_validate true (createForm none)).1.formState.isValid = true :=
  (validate_isValid_iff_errors_empty true (createForm none)).1.mpr rfl

/-- C5: A validation pass publishes the error object into `formState.errors`
only once `submitCount > 0`; with `submitCount = 0` the externally visible
errors are left untouched while `isValid` is still recomputed. -/
theorem validate_publishes_errors_only_after_submit (b : Bool) (f : Form) :
    (f.formState.submitCount = 0 →
      (_validate b f).1.formState.errors = f.formState.errors
      ∧ (_validate b f).1.formState.isValid = (computeErrors f.validators).isEmpty)
    ∧ (0 < f.formState.submitCount →
      (_validate b f).1.formState.errors = computeErrors f.validators) := by
  rw [_validate_eq]
  constructor
  · intro h
    simp [h]
  · intro h
    simp [h]

/-- C5 witness: pre-submission, a failing form recomputes `isValid` to
`false` while its published errors stay empty. -/
theorem validate_publishes_errors_only_after_submit_witness :
    (_validate false sampleInvalidForm).1.formState.errors = []
    ∧ (_validate false sampleInvalidForm).1.formState.isValid = false := by
  have h := (validate_publishes_errors_only_after_submit false sampleInvalidForm).1 rfl
  exact ⟨h.1, h.2⟩

/-- C6 as stated is false: registering with the validator list
`[str "err", boolVal true]` records the final entry `true` into
`activeValidators`, not the last string-valued entry `"err"`. -/
theorem register_counterexample_last_string_does_not_win :
    lookupKey "u"
        ((register "u" (some [FieldValue.str "err", FieldValue.boolVal true])
          (textElem "") (createForm none)).validators)
      = some (FieldValue.boolVal true)
    ∧ some (FieldValue.boolVal true) ≠ some (FieldValue.str "err") := by
  exact ⟨rfl, by decide⟩

/-- C6 amended: for a non-empty validator list, `register` records the LAST
entry of the list, whatever its type (later entries overwrite earlier ones
for the key — replace, not accumulate); consequently the error message
reported for the field is that last entry exactly when it is a string. -/
theorem register_records_last_entry (f : Form) (key : String)
    (vs : List FieldValue) (ref : InputElement) (hne : vs ≠ [])
    (hnd : (f.validators.map Prod.fst).Nodup) :
    lookupKey key ((register key (some vs) ref f).validators)
      = some (vs.getLast hne)
    ∧ ∀ s, vs.getLast hne = FieldValue.str s →
        lookupKey key (computeErrors ((register key (some vs) ref f).validators))
          = some s := by
  have hval : (register key (some vs) ref f).validators
      = vs.foldl (fun acc v => updateAssoc key v acc) f.validators := rfl
  constructor
  · rw [hval]
    exact lookupKey_foldl_updateAssoc key vs f.validators hne
  · intro s hs
    rw [hval, lookupKey_computeErrors _ _
        (nodupKeys_foldl_updateAssoc key vs f.validators hnd),
      lookupKey_foldl_updateAssoc key vs f.validators hne, hs]

/-- C6 amended witness: of two string entries the later one is recorded and
reported. -/
theorem register_records_last_entry_witness :
    lookupKey "u"
        ((register "u" (some [FieldValue.str "a", FieldValue.str "b"])
          (textElem "") (createForm none)).validators)
      = some (FieldValue.str "b")
    ∧ lookupKey "u"
        (computeErrors ((register "u"
          (some [FieldValue.str "a", FieldValue.str "b"])
          (textElem "") (createForm none)).validators))
      = some "b" := by
  have h := register_records_last_entry (createForm none) "u"
    [FieldValue.str "a", FieldValue.str "b"] (textElem "") (by decide) (by decide)
  exact ⟨h.1, h.2 "b" (by decide)⟩

/-- C7 as stated is false: with an `initialValues` object present but lacking
key `"b"`, `_setInitialValues` still writes to the element, putting the
string `"undefined"` (JS `String(undefined)`) into its `value`. -/
theorem setInitialValues_counterexample_missing_key_writes :
    _setInitialValues (some [("a", FieldValue.str "x")]) (textElem "orig") "b"
      = { type := "text", value := "undefined", checked := false }
    ∧ _setInitialValues (some [("a", FieldValue.str "x")]) (textElem "orig") "b"
      ≠ textElem "orig" := by
  exact ⟨rfl, by decide⟩

/-- C7 amended: the write is gated on the whole `initialValues` option, not
on the key: when the option is absent the element is untouched; when present
the element is always written by element type — checkbox gets
`Boolean(initialValues[name])` into `checked`, number and any other element
get `String(initialValues[name])` into `value` — seeding the stored value
when the key exists and writing `"undefined"` / `false` when it does not. -/
theorem setInitialValues_seeds_element (iv : Fields) (ref : InputElement)
    (key : String) :
    _setInitialValues none ref key = ref
    ∧ (ref.type = "number" →
        _setInitialValues (some iv) ref key
          = { ref with value := jsString (lookupKey key iv) })
    ∧ (ref.type = "checkbox" →
        _setInitialValues (some iv) ref key
          = { ref with checked := jsBoolean (lookupKey key iv) })
    ∧ (ref.type ≠ "number" → ref.type ≠ "checkbox" →
        _setInitialValues (some iv) ref key
          = { ref with value := jsString (lookupKey key iv) }) := by
  refine ⟨rfl, ?_, ?_, ?_⟩
  · intro h
    simp [_setInitialValues, h]
  · intro h
    have hnum : ref.type ≠ "number" := by
      rw [h]
      decide
    simp [_setInitialValues, h, hnum]
  · intro h1 h2
    simp [_setInitialValues, h1, h2]

/-- C7 amended witness: a present numeric seed is stringified onto the
element's `value`. -/
theorem setInitialValues_seeds_element_witness :
    _setInitialValues (some [("age", FieldValue.num (some 30))])
        { type := "number", value := "", checked := false } "age"
      = { type := "number", value := "30", checked := false } := by
  have h := (setInitialValues_seeds_element [("age", FieldValue.num (some 30))]
    { type := "number", value := "", checked := false } "age").2.1 rfl
  exact h.trans (by decide)

/-- C8: Every `submitForm` call increments `submitCount` by exactly one
regardless of validation outcome; no other operation changes it; hence
`submitCount` never decreases over any operation sequence. -/
theorem submitCount_monotone :
    (∀ (f : Form) (s : Fields → Except String Unit),
      ((submitForm s f).1).formState.submitCount = f.formState.submitCount + 1)
    ∧ (∀ (f : Form) (op : Op), op.isSubmit = false →
      (applyOp op f).formState.submitCount = f.formState.submitCount)
    ∧ (∀ (f : Form) (ops : List Op),
      f.formState.submitCount ≤ (run ops f).formState.submitCount) := by
  have hsub : ∀ (f : Form) (s : Fields → Except String Unit),
      ((submitForm s f).1).formState.submitCount = f.formState.submitCount + 1 := by
    intro f s
    by_cases h : computeErrors f.validators = []
    · rw [submitForm_valid_eq s f h]
    · rw [submitForm_invalid_eq s f h]
  have hother : ∀ (f : Form) (op : Op), op.isSubmit = false →
      (applyOp op f).formState.submitCount = f.formState.submitCount := by
    intro f op hop
    cases op with
    | input k r =>
      show ((_validate false (_setAdequateValue k r f)).1).formState.submitCount
        = f.formState.submitCount
      rw [_validate_eq]
      rfl
    | reg k vs r => cases vs <;> rfl
    | setF k v => rfl
    | submit s => simp [Op.isSubmit] at hop
  refine ⟨hsub, hother, ?_⟩
  intro f ops
  induction ops generalizing f with
  | nil => exact Nat.le_refl _
  | cons op rest ih =>
    refine Nat.le_trans ?_ (ih (applyOp op f))
    cases op with
    | submit s =>
      show f.formState.submitCount ≤ ((submitForm s f).1).formState.submitCount
      rw [hsub f s]
      exact Nat.le_succ _
    | input k r =>
      rw [hother f (.input k r) rfl]
    | reg k vs r =>
      rw [hother f (.reg k vs r) rfl]
    | setF k v =>
      rw [hother f (.setF k v) rfl]

/-- C8 witness: one concrete submission bumps the counter to 1, a
programmatic field write leaves it at 0, and a one-submission run does not
decrease it. -/
theorem submitCount_monotone_witness :
    ((submitForm (fun _ => Except.ok ())
        (createForm none)).1).formState.submitCount = 1
    ∧ (applyOp (Op.setF "a" (FieldValue.str "x"))
        (createForm none)).formState.submitCount = 0
    ∧ (createForm none).formState.submitCount
        ≤ (run [Op.submit (fun _ => Except.ok ())]
            (createForm none)).formState.submitCount := by
  refine ⟨?_, ?_, ?_⟩
  · exact submitCount_monotone.1 (createForm none) (fun _ => Except.ok ())
  · exact submitCount_monotone.2.1 (createForm none)
      (Op.setF "a" (FieldValue.str "x")) rfl
  · exact submitCount_monotone.2.2 (createForm none)
      [Op.submit (fun _ => Except.ok ())]

/-- C9 as stated is false: an empty-string validator entry has
`typeof === "string"`, so the pass records it, and the published error for
`"f"` is `""` — present but not a non-empty string. -/
theorem errors_counterexample_empty_message :
    lookupKey "f" ((_validate true sampleEmptyMsgForm).1.formState.errors)
      = some ""
    ∧ String.length "" = 0 := by
  exact ⟨rfl, rfl⟩

/-- C9 amended: after a validation pass with `submitCount > 0` over
distinct validator keys, every key in the published errors maps to exactly
its string-valued validator entry — hence non-empty whenever the entry is —
and a field whose entry is boolean has no errors entry at all. -/
theorem errors_match_string_validators (b : Bool) (f : Form)
    (hnd : (f.validators.map Prod.fst).Nodup)
    (hsc : 0 < f.formState.submitCount) :
    (∀ k m, lookupKey k ((_validate b f).1.formState.errors) = some m →
      lookupKey k f.validators = some (FieldValue.str m))
    ∧ (∀ k bv, lookupKey k f.validators = some (FieldValue.boolVal bv) →
      lookupKey k ((_validate b f).1.formState.errors) = none) := by
  have herr : (_validate b f).1.formState.errors = computeErrors f.validators := by
    rw [_validate_eq]
    simp [hsc]
  rw [herr]
  constructor
  · intro k m hm
    have h := lookupKey_computeErrors f.validators k hnd
    rw [hm] at h
    rcases hv : lookupKey k f.validators with _ | v
    · rw [hv] at h
      simp at h
    · rw [hv] at h
      cases v with
      | str s =>
        simp at h
        subst h
        rfl
      | num n => simp at h
      | boolVal bb => simp at h
  · intro k bv hb2
    rw [lookupKey_computeErrors f.validators k hnd, hb2]

/-- C9 amended witness: the one published error of a submitted form equals
its string validator entry. -/
theorem errors_match_string_validators_witness :
    lookupKey "u" sampleSubmittedForm.validators
      = some (FieldValue.str "required") :=
  (errors_match_string_validators true sampleSubmittedForm
    (by decide) (by decide)).1 "u" "required" (by decide)

/-- C10: The returned `setFields` setter writes only the `fields` store: the
whole `formState` (errors, isValid, isDirty, touchedFields, submitCount,
isLoading), the refs, the validators and the initial values are untouched,
and no validation pass runs. -/
theorem setFields_only_mutates_fields (key : String) (v : FieldValue)
    (f : Form) :
    (setFields key v f).formState = f.formState
    ∧ (setFields key v f).refs = f.refs
    ∧ (setFields key v f).validators = f.validators
    ∧ (setFields key v f).initialValues = f.initialValues
    ∧ (setFields key v f).fields = updateAssoc key v f.fields := by
  exact ⟨rfl, rfl, rfl, rfl, rfl⟩

end LidsoForm
